import Mathlib

set_option maxRecDepth 8000

/-!
# A verification model of `cache.py` (fs-tree-sync)

This file gives a shallow embedding of the content-addressable object store in
`src/cache.py` and proves/refutes the specification claims about it.

Modelling conventions:
* Byte strings are `List Nat` (each entry an octet value); `bytes s` turns an
  ASCII string literal into its byte list.
* Python file objects are `ByteStream` records carrying the full contents and a
  read position; `tell`/`seek` are explicit.
* The repository filesystem is an association list from paths (byte lists) to
  file contents, newest binding first (a fresh `open(path, 'wb')` prepends).
* zlib compression is modelled as the identity on bytes: `write_compressed`
  stores the concatenation of its input streams and `read_compressed` yields a
  sequence of chunks whose concatenation is the stored bytes.  Theorems about
  the read path are therefore quantified over every chunking of the contents.
* Python exceptions are constructors of `Err`; a `Dict`-style raise is an
  `Except.error`.
-/

/-- ASCII string literal to byte list. -/
def bytes (s : String) : List Nat := s.data.map Char.toNat

/-- Python `str.split()` whitespace (ASCII part): space, tab, LF, VT, FF, CR. -/
def isSpaceByte (b : Nat) : Bool :=
  b = 32 || b = 9 || b = 10 || b = 11 || b = 12 || b = 13

/-- ASCII decimal digit. -/
def isDigitByte (b : Nat) : Bool := 48 ≤ b && b ≤ 57

/-- Accumulator-passing core of `tokensOf` (Python `str.split()` with no
arguments): split on runs of whitespace, dropping empty tokens. -/
def tokensAux : List Nat → List Nat → List (List Nat)
  | [], cur => if cur = [] then [] else [cur.reverse]
  | b :: bs, cur =>
    if isSpaceByte b then
      if cur = [] then tokensAux bs [] else cur.reverse :: tokensAux bs []
    else tokensAux bs (b :: cur)

/-- Model of Python `header.split()` on a byte string. -/
def tokensOf (l : List Nat) : List (List Nat) := tokensAux l []

/-- Index of the first NUL byte, model of `chunk.find(b'\x00')`
(`none` plays the role of the `-1` result). -/
def findNul : List Nat → Option Nat
  | [] => none
  | b :: bs => if b = 0 then some 0 else (findNul bs).map (· + 1)

/-- Little-endian decimal digits of `n` with explicit fuel (structural
recursion so that the kernel can evaluate it). -/
def natDigitsAux : Nat → Nat → List Nat
  | 0, _ => []
  | fuel + 1, n => if n = 0 then [] else n % 10 :: natDigitsAux fuel (n / 10)

/-- Model of Python `str(n)` for a non-negative integer: ASCII bytes of the
decimal rendering of `n`, no sign, no leading zeros (except `"0"`). -/
def natDecimal (n : Nat) : List Nat :=
  if n = 0 then [48] else ((natDigitsAux n n).map (· + 48)).reverse

/-- Drop leading and trailing ASCII whitespace, the `.strip()` Python `int()`
performs on its argument. -/
def stripWs (l : List Nat) : List Nat :=
  ((l.dropWhile isSpaceByte).reverse.dropWhile isSpaceByte).reverse

/-- Value of a non-empty all-digit byte string. -/
def digitsVal (ds : List Nat) : Option Nat :=
  if ds ≠ [] ∧ ds.all isDigitByte then
    some (ds.foldl (fun a b => a * 10 + (b - 48)) 0)
  else none

/-- Model of Python `int(s)` on an ASCII byte string: strips surrounding
whitespace, accepts an optional `+`/`-` sign followed by a non-empty digit
string, and fails (`ValueError`) otherwise.  (Digit-group underscores and
non-ASCII digits, which CPython also accepts, are not modelled; no theorem
below evaluates `int()` on such inputs.) -/
def pyInt (l : List Nat) : Option Int :=
  match stripWs l with
  | [] => none
  | b :: ds =>
    if b = 43 then (digitsVal ds).map (fun n => (n : Int))
    else if b = 45 then (digitsVal ds).map (fun n => -(n : Int))
    else (digitsVal (b :: ds)).map (fun n => (n : Int))

/-- Python exceptions raised by the code, plus the spec's error taxonomy used
by the spec-modelled definitions. -/
inductive Err where
  | assertionError
  | nameError
  | stopIteration
  | valueError
  | indexError
  | fileNotFound
  | objectNotFound
  | wrongObjectKind
  | malformedTree
  | pathEscapesRoot
  deriving DecidableEq, Repr


theorem natDigitsAux_eq_digits (fuel n : Nat) (h : n ≤ fuel) :
    natDigitsAux fuel n = Nat.digits 10 n := by
  induction fuel generalizing n with
  | zero =>
    interval_cases n
    simp [natDigitsAux]
  | succ fuel ih =>
    by_cases hn : n = 0
    · simp [natDigitsAux, hn]
    · rw [natDigitsAux, if_neg hn, Nat.digits_def' (by norm_num) (Nat.pos_of_ne_zero hn),
        ih (n / 10) ?_]
      have := Nat.div_lt_self (Nat.pos_of_ne_zero hn) (by norm_num : (1:Nat) < 10)
      omega

theorem natDecimal_eq (n : Nat) :
    natDecimal n = if n = 0 then [48] else ((Nat.digits 10 n).map (· + 48)).reverse := by
  unfold natDecimal
  rw [natDigitsAux_eq_digits n n le_rfl]

theorem natDecimal_mem_digit {n b : Nat} (h : b ∈ natDecimal n) :
    48 ≤ b ∧ b ≤ 57 := by
  rw [natDecimal_eq] at h
  by_cases hn : n = 0
  · simp [hn] at h; omega
  · rw [if_neg hn] at h
    simp only [List.mem_reverse, List.mem_map] at h
    obtain ⟨d, hd, rfl⟩ := h
    have := Nat.digits_lt_base (by norm_num : (1:Nat) < 10) hd
    omega

theorem natDecimal_ne_nil (n : Nat) : natDecimal n ≠ [] := by
  rw [natDecimal_eq]
  by_cases hn : n = 0
  · simp [hn]
  · rw [if_neg hn]
    simp [Nat.digits_ne_nil_iff_ne_zero, hn]

theorem foldl_digits (l : List Nat) (a : Nat) :
    List.foldl (fun a b => a * 10 + (b - 48)) a ((l.map (· + 48)).reverse)
      = a * 10 ^ l.length + Nat.ofDigits 10 l := by
  induction l generalizing a with
  | nil => simp [Nat.ofDigits]
  | cons d ds ih =>
    simp only [List.map_cons, List.reverse_cons, List.foldl_append, List.foldl_cons,
      List.foldl_nil, ih, Nat.ofDigits_cons, List.length_cons]
    ring_nf
    omega

theorem digitsVal_natDecimal (n : Nat) : digitsVal (natDecimal n) = some n := by
  unfold digitsVal
  rw [if_pos ?_]
  · congr 1
    rw [natDecimal_eq]
    by_cases hn : n = 0
    · simp [hn]
    · rw [if_neg hn]
      have h1 : (Nat.digits 10 n).map (· + 48) = ((Nat.digits 10 n).map (· + 48)) := rfl
      rw [foldl_digits]
      simp [Nat.ofDigits_digits]
  · constructor
    · exact natDecimal_ne_nil n
    · rw [List.all_eq_true]
      intro b hb
      have := natDecimal_mem_digit hb
      simp [isDigitByte]
      omega

theorem not_isSpaceByte_of_digit {b : Nat} (h : 48 ≤ b) : isSpaceByte b = false := by
  simp [isSpaceByte]
  omega

theorem dropWhile_eq_self_of {p : Nat → Bool} {l : List Nat}
    (h : ∀ b ∈ l, p b = false) : l.dropWhile p = l := by
  cases l with
  | nil => rfl
  | cons a l =>
    rw [List.dropWhile_cons_of_neg]
    simp [h a (List.mem_cons_self a l)]

theorem stripWs_of_no_space {l : List Nat} (h : ∀ b ∈ l, isSpaceByte b = false) :
    stripWs l = l := by
  unfold stripWs
  rw [dropWhile_eq_self_of h, dropWhile_eq_self_of, List.reverse_reverse]
  intro b hb
  exact h b (List.mem_reverse.mp hb)

theorem pyInt_natDecimal (n : Nat) : pyInt (natDecimal n) = some (n : Int) := by
  have hd : ∀ b ∈ natDecimal n, 48 ≤ b ∧ b ≤ 57 := fun b hb => natDecimal_mem_digit hb
  have hs : stripWs (natDecimal n) = natDecimal n :=
    stripWs_of_no_space (fun b hb => not_isSpaceByte_of_digit (hd b hb).1)
  unfold pyInt
  rw [hs]
  obtain ⟨c, cs, hcons⟩ : ∃ c cs, natDecimal n = c :: cs := by
    cases h : natDecimal n with
    | nil => exact absurd h (natDecimal_ne_nil n)
    | cons c cs => exact ⟨c, cs, rfl⟩
  have hc : 48 ≤ c ∧ c ≤ 57 := hd c (by rw [hcons]; exact List.mem_cons_self c cs)
  rw [hcons]
  have h43 : ¬ c = 43 := by omega
  have h45 : ¬ c = 45 := by omega
  simp only [if_neg h43, if_neg h45]
  rw [show (c :: cs) = natDecimal n from hcons.symm, digitsVal_natDecimal]
  rfl

theorem tokensAux_nil (cur : List Nat) :
    tokensAux [] cur = if cur = [] then [] else [cur.reverse] := rfl

theorem tokensAux_nonspace (w : List Nat) (hw : ∀ b ∈ w, isSpaceByte b = false) :
    ∀ rest cur, tokensAux (w ++ rest) cur = tokensAux rest (w.reverse ++ cur) := by
  induction w with
  | nil => intro rest cur; simp
  | cons a w ih =>
    intro rest cur
    have ha : isSpaceByte a = false := hw a (List.mem_cons_self a w)
    rw [List.cons_append, tokensAux, if_neg (by simp [ha]),
      ih (fun b hb => hw b (List.mem_cons_of_mem a hb)) rest (a :: cur)]
    simp

theorem tokensAux_space (rest cur : List Nat) :
    tokensAux (32 :: rest) cur
      = if cur = [] then tokensAux rest [] else cur.reverse :: tokensAux rest [] := by
  rw [tokensAux, if_pos (by simp [isSpaceByte])]

/-- `"<K> <D>".split()` is `[K, D]` when `K` and `D` are non-empty and free of
whitespace bytes. -/
theorem tokensOf_two (K D : List Nat) (hK : K ≠ []) (hKs : ∀ b ∈ K, isSpaceByte b = false)
    (hD : D ≠ []) (hDs : ∀ b ∈ D, isSpaceByte b = false) :
    tokensOf (K ++ 32 :: D) = [K, D] := by
  unfold tokensOf
  rw [tokensAux_nonspace K hKs, tokensAux_space, if_neg (by simp [hK]),
    ← List.append_nil D, tokensAux_nonspace D hDs, tokensAux_nil]
  simp [hD]

/-! ## SHA-1 (the `hashlib.sha1` digest used by `compute_sha1_hash`)

Implemented over byte lists with structural recursion only, so the kernel can
evaluate it on concrete inputs.  All word arithmetic is `Nat` reduced mod
`2 ^ 32` where overflow matters. -/

/-- Rotate a 32-bit word left by `k` (for `x < 2 ^ 32`). -/
def rotl32 (x k : Nat) : Nat := ((x <<< k) % 2 ^ 32) ||| (x >>> (32 - k))

/-- `w` bytes of `n`, big-endian. -/
def toBytesBE : Nat → Nat → List Nat
  | 0, _ => []
  | w + 1, n => toBytesBE w (n / 256) ++ [n % 256]

/-- SHA-1 padding: append `0x80`, zeros to 56 mod 64, then the bit length as
eight big-endian bytes. -/
def sha1Pad (msg : List Nat) : List Nat :=
  msg ++ 128 :: (List.replicate ((120 - (msg.length + 1) % 64) % 64) 0
    ++ toBytesBE 8 (msg.length * 8))

/-- Split into 64-byte blocks (`fuel` bounds the recursion; callers pass the
list length). -/
def toBlocks : Nat → List Nat → List (List Nat)
  | 0, _ => []
  | fuel + 1, l => if l = [] then [] else l.take 64 :: toBlocks fuel (l.drop 64)

/-- First `w` 32-bit big-endian words of a byte list. -/
def toWordsBE : Nat → List Nat → List Nat
  | 0, _ => []
  | w + 1, l => (l.take 4).foldl (fun a b => a * 256 + b) 0 :: toWordsBE w (l.drop 4)

/-- Message-schedule extension; the word list is kept newest-first. -/
def sha1Extend : Nat → List Nat → List Nat
  | 0, ws => ws
  | k + 1, ws =>
    let w := rotl32 ((((ws.getD 2 0) ^^^ (ws.getD 7 0)) ^^^ (ws.getD 13 0)) ^^^ (ws.getD 15 0)) 1
    sha1Extend k (w :: ws)

/-- Round function. -/
def sha1F (t b c d : Nat) : Nat :=
  if t < 20 then (b &&& c) ||| (((2 ^ 32 - 1) ^^^ b) &&& d)
  else if t < 40 then (b ^^^ c) ^^^ d
  else if t < 60 then (b &&& c) ||| (b &&& d) ||| (c &&& d)
  else (b ^^^ c) ^^^ d

/-- Round constants. -/
def sha1K (t : Nat) : Nat :=
  if t < 20 then 0x5A827999
  else if t < 40 then 0x6ED9EBA1
  else if t < 60 then 0x8F1BBCDC
  else 0xCA62C1D6

/-- The 80 compression rounds, one per scheduled word. -/
def sha1Rounds : Nat → List Nat → Nat × Nat × Nat × Nat × Nat → Nat × Nat × Nat × Nat × Nat
  | _, [], st => st
  | t, w :: ws, (a, b, c, d, e) =>
    let temp := (rotl32 a 5 + sha1F t b c d + e + sha1K t + w) % 2 ^ 32
    sha1Rounds (t + 1) ws (temp, a, rotl32 b 30, c, d)

/-- Process one 64-byte block. -/
def sha1Block (h : Nat × Nat × Nat × Nat × Nat) (block : List Nat) :
    Nat × Nat × Nat × Nat × Nat :=
  let ws := (sha1Extend 64 ((toWordsBE 16 block).reverse)).reverse
  match h, sha1Rounds 0 ws h with
  | (h0, h1, h2, h3, h4), (a, b, c, d, e) =>
    ((h0 + a) % 2 ^ 32, (h1 + b) % 2 ^ 32, (h2 + c) % 2 ^ 32,
     (h3 + d) % 2 ^ 32, (h4 + e) % 2 ^ 32)

/-- SHA-1 initialization vector. -/
def sha1Init : Nat × Nat × Nat × Nat × Nat :=
  (0x67452301, 0xEFCDAB89, 0x98BADCFE, 0x10325476, 0xC3D2E1F0)

/-- Lowercase hex digit byte. -/
def hexDigit (n : Nat) : Nat := if n < 10 then 48 + n else 87 + n

/-- Two lowercase hex digit bytes of an octet. -/
def hexByte (b : Nat) : List Nat := [hexDigit (b / 16), hexDigit (b % 16)]

/-- `hashlib.sha1(msg).hexdigest()` as an ASCII byte list: the 40 lowercase hex
characters of the SHA-1 digest of `msg`. -/
def sha1Hex (msg : List Nat) : List Nat :=
  let padded := sha1Pad msg
  match (toBlocks padded.length padded).foldl sha1Block sha1Init with
  | (h0, h1, h2, h3, h4) =>
    (toBytesBE 4 h0 ++ toBytesBE 4 h1 ++ toBytesBE 4 h2 ++ toBytesBE 4 h3
      ++ toBytesBE 4 h4).foldr (fun b acc => hexByte b ++ acc) []

/-! ## Streams and the on-disk store -/

/-- A Python binary file object: full contents plus current read position. -/
structure ByteStream where
  content : List Nat
  pos : Nat
  deriving DecidableEq, Repr

/-- `stream.tell()`. -/
def ByteStream.tell (s : ByteStream) : Nat := s.pos

/-- `stream.seek(0, os.SEEK_END)`. -/
def ByteStream.seekEnd (s : ByteStream) : ByteStream := { s with pos := s.content.length }

/-- `stream.seek(n)`. -/
def ByteStream.seekTo (s : ByteStream) (n : Nat) : ByteStream := { s with pos := n }

/-- Model of `stream_length` (cache.py lines 76-82): `tell()`, seek to the end,
subtract, seek back; returns the computed length together with the stream as
the function leaves it.  `tell() - cur` is Python integer subtraction; for
streams with `pos ≤ content.length` (positions past end-of-file never arise in
this model) it agrees with the `Nat` subtraction used here. -/
def stream_length (s : ByteStream) : Nat × ByteStream :=
  let cur := s.tell
  let s1 := s.seekEnd
  let length := s1.tell - cur
  let s2 := s1.seekTo cur
  (length, s2)

/-- The filesystem seen by the store: an association list from paths to file
contents, newest binding first (`open(path, 'wb')` rebinds the path). -/
abbrev FS := List (List Nat × List Nat)

/-- `os.path.join(repo, 'objects', sha[:2])` joined with `sha[2:]`
(cache.py lines 111-112 and 132). -/
def objPath (repo sha : List Nat) : List Nat :=
  repo ++ bytes "/objects/" ++ sha.take 2 ++ bytes "/" ++ sha.drop 2

/-- The byte string `"blob"`. -/
def blobKind : List Nat := bytes "blob"

/-- The byte string `"tree"`. -/
def treeKind : List Nat := bytes "tree"

/-- The byte string `"commit"`. -/
def commitKind : List Nat := bytes "commit"

/-- `OBJECT_TYPES = ['blob', 'tree', 'commit']` (cache.py line 100). -/
def OBJECT_TYPES : List (List Nat) := [blobKind, treeKind, commitKind]

/-- Model of `object_header` (cache.py lines 71-73):
`(objtype + '\x20' + str(length) + '\x00').encode()`.  It performs no
validation of `objtype`.  `length` is a `Nat` because its only caller passes a
`stream_length` result, which is non-negative. -/
def object_header (objtype : List Nat) (length : Nat) : List Nat :=
  objtype ++ 32 :: (natDecimal length ++ [0])

/-- Model of `write_object` (cache.py lines 101-128).  The returned tuple is
(filesystem after the call, `total_write_length` after the call, `sha`,
`length`); the global `total_write_length` is threaded through as `counter`.
Steps, in source order: assert `objtype in OBJECT_TYPES` (AssertionError
otherwise); measure the remaining stream length from the current position;
hash `header` followed by the bytes from the current position to the end; skip
the write if a file already exists at the sharded path; otherwise add the
payload length to the counter and store — after `header.seek(0)` and
`stream.seek(0)` — the compressed concatenation of the header and the *whole*
stream contents from position zero (compression is modelled as the identity,
see the file header). -/
def write_object (repo : List Nat) (fs : FS) (counter : Nat)
    (objtype : List Nat) (data : ByteStream) :
    Except Err (FS × Nat × List Nat × Nat) :=
  if objtype ∈ OBJECT_TYPES then
    let length := (stream_length data).1
    let stream := (stream_length data).2
    let header := object_header objtype length
    let sha := sha1Hex (header ++ stream.content.drop stream.pos)
    let path := objPath repo sha
    if (fs.lookup path).isSome then
      .ok (fs, counter, sha, length)
    else
      .ok ((path, header ++ stream.content) :: fs, counter + length, sha, length)
  else .error .assertionError

/-- The successive states of the repository filesystem during
`write_object`, in chronological order: the state before the call, the state
immediately after `open(path, 'wb')` has created/truncated the file at the
final sharded path (cache.py line 125), and the state after `write_compressed`
has finished.  When the object already exists, or the kind assertion fails,
nothing is written and the trace is the single initial state.  (States in
which `write_compressed` has flushed only part of the compressed bytes sit
between the last two entries and are not enumerated; the trace
under-approximates the set of intermediate states, which is sound for the
existence statements proved below.) -/
def write_object_trace (repo : List Nat) (fs : FS)
    (objtype : List Nat) (data : ByteStream) : List FS :=
  if objtype ∈ OBJECT_TYPES then
    let length := (stream_length data).1
    let stream := (stream_length data).2
    let header := object_header objtype length
    let sha := sha1Hex (header ++ stream.content.drop stream.pos)
    let path := objPath repo sha
    if (fs.lookup path).isSome then [fs]
    else [fs, (path, []) :: fs, (path, header ++ stream.content) :: fs]
  else [fs]

/-! ## The read path -/

/-- The object handle yielded by `read_object` (cache.py lines 16-26 and 153):
parsed type tag, parsed length (a Python `int`, so possibly negative), and the
lazy sequence of payload chunks `chain([remaining], chunks)`. -/
structure GitObject where
  type : List Nat
  length : Int
  data : List (List Nat)
  deriving DecidableEq, Repr

/-- The header-scanning loop of `read_object` (cache.py lines 139-156) over
the decompressed chunk sequence.  Chunks without a NUL are accumulated into
`headerAcc`; exhausting the chunk sequence first raises StopIteration (which
PEP 479 surfaces to the caller as a RuntimeError, modelled by the same
constructor).  On the first NUL: the header is everything up to and including
the NUL; `header.split()` is `tokensOf`; `int(parts[1][:-1])` is
`pyInt parts[1].dropLast` and raises ValueError when it fails; a missing
`parts[1]` raises IndexError.  The kind tag `parts[0]` is *not* validated.
Bytes are modelled directly, so the `.decode()` step (UTF-8) is the identity;
every input a theorem below evaluates this on is ASCII. -/
def parse_object_loop (headerAcc : List Nat) : List (List Nat) → Except Err GitObject
  | [] => .error .stopIteration
  | chunk :: rest =>
    match findNul chunk with
    | none => parse_object_loop (headerAcc ++ chunk) rest
    | some i =>
      match tokensOf (headerAcc ++ chunk.take (i + 1)) with
      | p0 :: p1 :: _ =>
        match pyInt p1.dropLast with
        | some n => .ok ⟨p0, n, chunk.drop (i + 1) :: rest⟩
        | none => .error .valueError
      | _ => .error .indexError

/-- Parsing of a decompressed object, starting with an empty header
accumulator (`header_chunks = []`). -/
def parse_object (chunks : List (List Nat)) : Except Err GitObject :=
  parse_object_loop [] chunks

/-- Model of `read_object` (cache.py lines 130-159): open the file at the
sharded path (FileNotFoundError when absent) and parse its decompressed
contents.  `chunks` is the chunk sequence produced by `read_compressed`;
decompression being modelled as the identity, theorems quantify over every
`chunks` whose concatenation is the stored file's contents. -/
def read_object (repo : List Nat) (fs : FS) (sha : List Nat)
    (chunks : List (List Nat)) : Except Err GitObject :=
  match fs.lookup (objPath repo sha) with
  | none => .error .fileNotFound
  | some _ => parse_object chunks

/-! ## The snapshot writer -/

/-- Model of `write_tree` (cache.py lines 172-200).  Its first statement
(line 175) evaluates `os.path.abspath(root)`, but no variable `root` is in
scope — the parameter is named `rootdir` and no global `root` exists — so
every call raises NameError before reading any path, touching the filesystem,
or changing `total_write_length`.  The result is the raised error together
with the filesystem and counter, both unchanged. -/
def write_tree (repo rootdir : List Nat) (paths : List (List Nat))
    (fs : FS) (counter : Nat) : Except Err (List Nat) × FS × Nat :=
  (.error .nameError, fs, counter)

/-! ## Snapshot restore (spec-modelled)

`restore_tree` (cache.py lines 216-217) is an empty stub (`pass`), and the
source contains no tree decoder, so the restore path is modelled from the
spec's words (§4.4 `decode`, §4.6 `restore_snapshot`). -/

/-- One line of a tree object's payload: `(mode, hash, relative_path)`. -/
structure TreeEntry where
  mode : List Nat
  hash : List Nat
  relPath : List Nat
  deriving DecidableEq, Repr

/-- Modelled from the spec: one line of the tree grammar
`'<mode>' '<hash>' '<relative_path>'` (§4.4, §6), the format produced by the
encoder at cache.py line 195; fields are the bytes between the quotes. -/
def parseTreeLine (line : List Nat) : Option TreeEntry :=
  match line.splitOnP (· == 39) with
  | [[], m, [32], h, [32], p, []] => some ⟨m, h, p⟩
  | _ => none

/-- Modelled from the spec: §4.4 `decode`, the inverse parse of the tree
payload — lines separated by `\n`, each matching the three-quoted-field
grammar; the empty payload is the valid zero-entry tree (§4.5). -/
def decodeTree (payload : List Nat) : Option (List TreeEntry) :=
  if payload = [] then some []
  else (payload.splitOnP (· == 10)).mapM parseTreeLine

/-- Modelled from the spec: §4.6's rejection of entry paths that would escape
the destination root — an absolute path or one containing a `..` segment. -/
def pathEscapes (relPath : List Nat) : Bool :=
  relPath.headI == 47 || (relPath.splitOnP (· == 47)).any (· == [46, 46])

/-- The destination filesystem written by the restorer: path to
(mode, contents), newest binding first. -/
abbrev DestFS := List (List Nat × List Nat × List Nat)

/-- Modelled from the spec: step 2 of §4.6 — for each entry in encoded order,
reject escaping paths, read the referenced blob (missing object aborts with
`ObjectNotFound`, the originating parse error propagates), create the file at
`destination_root/relative_path` with the blob's payload and the stored mode,
and collect the restored relative paths in order. -/
def restoreEntries (repo : List Nat) (fs : FS) (destRoot : List Nat) :
    List TreeEntry → DestFS → Except Err (List (List Nat) × DestFS)
  | [], out => .ok ([], out)
  | e :: es, out =>
    if pathEscapes e.relPath then .error .pathEscapesRoot
    else
      match fs.lookup (objPath repo e.hash) with
      | none => .error .objectNotFound
      | some bfile =>
        match parse_object [bfile] with
        | .error err => .error err
        | .ok bobj =>
          match restoreEntries repo fs destRoot es
              ((destRoot ++ 47 :: e.relPath, e.mode, bobj.data.flatten) :: out) with
          | .ok (ps, out') => .ok (e.relPath :: ps, out')
          | .error err => .error err

/-- Modelled from the spec: §4.6 `restore_snapshot(repo, tree_hash,
destination_root)` — read the tree object (`ObjectNotFound` when absent,
`WrongObjectKind` when the object's kind is not `tree`), decode its payload
(`MalformedTree` on failure), restore every entry in encoded order, and return
the list of restored relative paths (paired here with the files written). -/
def restore_snapshot (repo : List Nat) (fs : FS) (treeSha : List Nat)
    (destRoot : List Nat) : Except Err (List (List Nat) × DestFS) :=
  match fs.lookup (objPath repo treeSha) with
  | none => .error .objectNotFound
  | some file =>
    match parse_object [file] with
    | .error e => .error e
    | .ok obj =>
      if obj.type = treeKind then
        match decodeTree obj.data.flatten with
        | none => .error .malformedTree
        | some entries => restoreEntries repo fs destRoot entries []
      else .error .wrongObjectKind

/-! ## Correctness of the header parser -/

theorem findNul_eq_none {c : List Nat} : findNul c = none ↔ 0 ∉ c := by
  induction c with
  | nil => simp [findNul]
  | cons b bs ih =>
    by_cases hb : b = 0
    · simp [findNul, hb]
    · simp [findNul, hb, Option.map_eq_none', ih, Ne.symm hb]

theorem findNul_some_split {c : List Nat} {i : Nat} (h : findNul c = some i) :
    ∃ c1 c2, c = c1 ++ 0 :: c2 ∧ 0 ∉ c1 ∧ i = c1.length := by
  induction c generalizing i with
  | nil => simp [findNul] at h
  | cons b bs ih =>
    by_cases hb : b = 0
    · subst hb
      simp [findNul] at h
      exact ⟨[], bs, rfl, by simp, h.symm⟩
    · rw [findNul, if_neg hb] at h
      obtain ⟨j, hj, rfl⟩ : ∃ j, findNul bs = some j ∧ i = j + 1 := by
        cases hfind : findNul bs with
        | none => rw [hfind] at h; simp at h
        | some j => rw [hfind] at h; simp at h; exact ⟨j, rfl, h.symm⟩
      obtain ⟨c1, c2, rfl, hc1, rfl⟩ := ih hj
      refine ⟨b :: c1, c2, rfl, ?_, by simp⟩
      simp only [List.mem_cons, not_or]
      exact ⟨fun hh => hb hh.symm, hc1⟩

theorem append_nul_inj {a b x y : List Nat} (ha : 0 ∉ a) (hb : 0 ∉ b)
    (h : a ++ 0 :: x = b ++ 0 :: y) : a = b ∧ x = y := by
  induction a generalizing b with
  | nil =>
    cases b with
    | nil => simpa using h
    | cons bb bs =>
      simp only [List.nil_append, List.cons_append, List.cons.injEq] at h
      exact absurd (h.1 ▸ List.mem_cons_self bb bs) hb
  | cons aa as ih =>
    cases b with
    | nil =>
      simp only [List.cons_append, List.nil_append, List.cons.injEq] at h
      exact absurd (h.1 ▸ List.mem_cons_self aa as) ha
    | cons bb bs =>
      simp only [List.cons_append, List.cons.injEq] at h
      obtain ⟨rfl, h⟩ := h
      obtain ⟨rfl, rfl⟩ := ih (fun hm => ha (List.mem_cons_of_mem aa hm))
        (fun hm => hb (List.mem_cons_of_mem aa hm)) h
      exact ⟨rfl, rfl⟩

/-- Processing a decompressed stream that carries a well-formed object header
`"<K> <n>\0"` followed by `payload`, the scanning loop of `read_object`
returns the kind tag, the parsed length and chunks concatenating to the
payload — uniformly in how the stream is cut into chunks. -/
theorem parse_object_loop_wf (K : List Nat) (n : Nat) (payload : List Nat)
    (hKnil : K ≠ []) (hKs : ∀ b ∈ K, isSpaceByte b = false) (hKnul : 0 ∉ K) :
    ∀ (chunks : List (List Nat)) (acc : List Nat), 0 ∉ acc →
      acc ++ chunks.flatten = object_header K n ++ payload →
      ∃ dataChunks, parse_object_loop acc chunks = .ok ⟨K, (n : Int), dataChunks⟩
        ∧ dataChunks.flatten = payload := by
  have hD0 : (0 : Nat) ∉ natDecimal n := by
    intro hm
    have := natDecimal_mem_digit hm
    omega
  have hH : (0 : Nat) ∉ K ++ 32 :: natDecimal n := by
    intro hm
    rcases List.mem_append.mp hm with hm | hm
    · exact hKnul hm
    · rcases List.mem_cons.mp hm with hm | hm
      · exact absurd hm.symm (by norm_num)
      · exact hD0 hm
  have hHeq : object_header K n ++ payload
      = (K ++ 32 :: natDecimal n) ++ 0 :: payload := by
    simp [object_header]
  intro chunks
  induction chunks with
  | nil =>
    intro acc hacc heq
    rw [hHeq] at heq
    simp only [List.flatten_nil, List.append_nil] at heq
    exact absurd (heq ▸ List.mem_append_right _ (List.mem_cons_self 0 payload)) hacc
  | cons c cs ih =>
    intro acc hacc heq
    rw [hHeq] at heq
    cases hfind : findNul c with
    | none =>
      have hc : (0 : Nat) ∉ c := findNul_eq_none.mp hfind
      have hacc' : (0 : Nat) ∉ acc ++ c := by
        intro hm
        rcases List.mem_append.mp hm with hm | hm
        · exact hacc hm
        · exact hc hm
      have heq' : (acc ++ c) ++ cs.flatten
          = object_header K n ++ payload := by
        rw [hHeq, List.append_assoc, ← List.flatten_cons]
        exact heq
      obtain ⟨dataChunks, hrun, hflat⟩ := ih (acc ++ c) hacc' heq'
      exact ⟨dataChunks, by rw [parse_object_loop, hfind]; exact hrun, hflat⟩
    | some i =>
      obtain ⟨c1, c2, rfl, hc1, rfl⟩ := findNul_some_split hfind
      have hsplit : (acc ++ c1) ++ 0 :: (c2 ++ cs.flatten)
          = (K ++ 32 :: natDecimal n) ++ 0 :: payload := by
        rw [← heq, List.flatten_cons]
        simp [List.append_assoc]
      have haccc1 : (0 : Nat) ∉ acc ++ c1 := by
        intro hm
        rcases List.mem_append.mp hm with hm | hm
        · exact hacc hm
        · exact hc1 hm
      obtain ⟨hhead, htail⟩ := append_nul_inj haccc1 hH hsplit
      have htake : (c1 ++ 0 :: c2).take (c1.length + 1) = c1 ++ [0] := by
        rw [List.take_append]
        rfl
      have hdrop : (c1 ++ 0 :: c2).drop (c1.length + 1) = c2 := by
        rw [List.drop_append]
        rfl
      have htok : tokensOf (acc ++ (c1 ++ 0 :: c2).take (c1.length + 1))
          = [K, natDecimal n ++ [0]] := by
        rw [htake, ← List.append_assoc, hhead, List.append_assoc, List.cons_append]
        have h32 : K ++ 32 :: (natDecimal n ++ [0]) = K ++ 32 :: (natDecimal n ++ [0]) := rfl
        refine tokensOf_two K (natDecimal n ++ [0]) hKnil hKs (by simp) ?_
        intro b hb
        rcases List.mem_append.mp hb with hb | hb
        · exact not_isSpaceByte_of_digit (natDecimal_mem_digit hb).1
        · rcases List.mem_singleton.mp hb with rfl
          rfl
      refine ⟨c2 :: cs, ?_, by rw [List.flatten_cons]; exact htail⟩
      simp only [parse_object_loop, hfind]
      rw [htok]
      simp only [List.dropLast_concat, pyInt_natDecimal, hdrop]

/-- `parse_object` on any chunking of a well-formed object file. -/
theorem parse_object_wf (K : List Nat) (n : Nat) (payload : List Nat)
    (hKnil : K ≠ []) (hKs : ∀ b ∈ K, isSpaceByte b = false) (hKnul : 0 ∉ K)
    (chunks : List (List Nat))
    (hchunks : chunks.flatten = object_header K n ++ payload) :
    ∃ dataChunks, parse_object chunks = .ok ⟨K, (n : Int), dataChunks⟩
      ∧ dataChunks.flatten = payload :=
  parse_object_loop_wf K n payload hKnil hKs hKnul chunks []
    (by simp) (by simpa using hchunks)

/-! ## Unfolding equations for the write path -/

theorem lookup_cons_self {β : Type} (p : List Nat) (v : β) (l : List (List Nat × β)) :
    List.lookup p ((p, v) :: l) = some v := by
  simp [List.lookup]

theorem lookup_cons_ne {β : Type} {p q : List Nat} (v : β) (l : List (List Nat × β))
    (h : p ≠ q) : List.lookup p ((q, v) :: l) = List.lookup p l := by
  simp [List.lookup, beq_eq_false_iff_ne.mpr h]

/-- `write_object` on a stream `⟨P, pos⟩` when no object is stored at the
target path: the file `header ++ P` (the header followed by the *whole*
contents, after `stream.seek(0)`) is created and the counter grows by the
measured length `P.length - pos`. -/
theorem write_object_fresh (repo : List Nat) (fs : FS) (counter : Nat)
    (K P : List Nat) (pos : Nat) (hK : K ∈ OBJECT_TYPES)
    (h : fs.lookup (objPath repo
        (sha1Hex (object_header K (P.length - pos) ++ P.drop pos))) = none) :
    write_object repo fs counter K ⟨P, pos⟩
      = .ok ((objPath repo (sha1Hex (object_header K (P.length - pos) ++ P.drop pos)),
              object_header K (P.length - pos) ++ P) :: fs,
             counter + (P.length - pos),
             sha1Hex (object_header K (P.length - pos) ++ P.drop pos),
             P.length - pos) := by
  simp only [write_object, if_pos hK, stream_length, ByteStream.tell, ByteStream.seekEnd,
    ByteStream.seekTo, h, Option.isSome_none, Bool.false_eq_true, if_false]

/-- `write_object` when an object is already stored at the target path: the
write is skipped and nothing changes. -/
theorem write_object_exists (repo : List Nat) (fs : FS) (counter : Nat)
    (K P : List Nat) (pos : Nat) (v : List Nat) (hK : K ∈ OBJECT_TYPES)
    (h : fs.lookup (objPath repo
        (sha1Hex (object_header K (P.length - pos) ++ P.drop pos))) = some v) :
    write_object repo fs counter K ⟨P, pos⟩
      = .ok (fs, counter,
             sha1Hex (object_header K (P.length - pos) ++ P.drop pos),
             P.length - pos) := by
  simp only [write_object, if_pos hK, stream_length, ByteStream.tell, ByteStream.seekEnd,
    ByteStream.seekTo, h, Option.isSome_some, if_true]

/-- Every recognized kind tag is a non-empty byte string containing neither
whitespace nor NUL bytes. -/
theorem kind_props {K : List Nat} (hK : K ∈ OBJECT_TYPES) :
    K ≠ [] ∧ (∀ b ∈ K, isSpaceByte b = false) ∧ 0 ∉ K := by
  simp only [OBJECT_TYPES, List.mem_cons, List.not_mem_nil, or_false] at hK
  rcases hK with rfl | rfl | rfl
  · exact ⟨by decide, by decide, by decide⟩
  · exact ⟨by decide, by decide, by decide⟩
  · exact ⟨by decide, by decide, by decide⟩

/-! ## C9 -/

/-- C9: `stream_length` returns the number of bytes from the stream's current
position to end-of-stream, and leaves the stream exactly as it was (position
and contents unchanged).  The hypothesis restricts to positions inside the
contents, where the model's `Nat` subtraction agrees with Python's `tell() -
cur`. -/
theorem C9_stream_length_frame (s : ByteStream) (h : s.pos ≤ s.content.length) :
    (stream_length s).1 = (s.content.drop s.pos).length
    ∧ (stream_length s).2 = s := by
  constructor
  · simp [stream_length, ByteStream.tell, ByteStream.seekEnd, ByteStream.seekTo,
      List.length_drop]
  · simp [stream_length, ByteStream.tell, ByteStream.seekEnd, ByteStream.seekTo]

/-- C9 at a concrete stream. -/
theorem C9_stream_length_frame_witness :
    (1 ≤ (bytes "abc").length)
    ∧ ((stream_length ⟨bytes "abc", 1⟩).1
          = (((⟨bytes "abc", 1⟩ : ByteStream)).content.drop
              ((⟨bytes "abc", 1⟩ : ByteStream)).pos).length
       ∧ (stream_length ⟨bytes "abc", 1⟩).2 = (⟨bytes "abc", 1⟩ : ByteStream)) :=
  ⟨by decide, C9_stream_length_frame ⟨bytes "abc", 1⟩ (by decide)⟩

/-! ## C8 -/

/-- C8 is refuted as stated: the header builder `object_header` performs no
kind validation — for the unrecognized kind `"bogus"` it returns the header
bytes `"bogus 5\0"` instead of failing with an InvalidObjectKind error. -/
theorem C8_counterexample :
    object_header (bytes "bogus") 5 = bytes "bogus 5\x00" := by decide

/-- C8 amended: `object_header('blob', 5)` is exactly the ASCII bytes
`"blob 5\0"`; the recognized-kind check lives not in the header builder but in
`write_object`'s opening assertion, which for every unrecognized kind raises
AssertionError before any I/O (the call returns the error and the write trace
is the single untouched initial filesystem state). -/
theorem C8_header_bytes_and_assert (K : List Nat) (repo : List Nat) (fs : FS)
    (counter : Nat) (s : ByteStream) (hK : K ∉ OBJECT_TYPES) :
    object_header blobKind 5 = bytes "blob 5\x00"
    ∧ write_object repo fs counter K s = .error .assertionError
    ∧ write_object_trace repo fs K s = [fs] := by
  refine ⟨by decide, ?_, ?_⟩
  · simp [write_object, hK]
  · simp [write_object_trace, hK]

/-- C8's amended behavior at the concrete unrecognized kind `"bogus"`. -/
theorem C8_header_bytes_and_assert_witness :
    (bytes "bogus" ∉ OBJECT_TYPES)
    ∧ (object_header blobKind 5 = bytes "blob 5\x00"
       ∧ write_object (bytes "r") [] 0 (bytes "bogus") ⟨bytes "p", 0⟩
           = .error .assertionError
       ∧ write_object_trace (bytes "r") [] (bytes "bogus") ⟨bytes "p", 0⟩
           = [([] : FS)]) :=
  ⟨by decide,
   C8_header_bytes_and_assert (bytes "bogus") (bytes "r") [] 0 ⟨bytes "p", 0⟩ (by decide)⟩

/-! ## C6 -/

theorem parse_object_loop_no_nul (chunks : List (List Nat)) :
    ∀ acc, (0 : Nat) ∉ chunks.flatten →
      parse_object_loop acc chunks = .error .stopIteration := by
  induction chunks with
  | nil => intro acc _; rfl
  | cons c cs ih =>
    intro acc h
    rw [List.flatten_cons] at h
    have hc : (0 : Nat) ∉ c := fun hm => h (List.mem_append_left _ hm)
    have hcs : (0 : Nat) ∉ cs.flatten := fun hm => h (List.mem_append_right _ hm)
    simp only [parse_object_loop, findNul_eq_none.mpr hc]
    exact ih _ hcs

/-- C6 is refuted as stated: a stored header whose kind tag `"zork"` is not a
recognized object kind parses successfully (yielding kind `"zork"`) instead of
failing — the read path never validates the kind. -/
theorem C6_counterexample :
    parse_object [bytes "zork 3\x00hi"]
      = .ok ⟨bytes "zork", 3, [bytes "hi"]⟩ := rfl

/-- C6 amended: the header scan fails with StopIteration (surfaced as
RuntimeError under PEP 479) when the decompressed stream ends before any NUL,
and with ValueError when the text before the NUL has a second
whitespace-separated field that `int()` cannot parse (IndexError when there
are fewer than two fields); a negative length such as `-3` is accepted even
though it is not a valid non-negative integer; and the kind tag is never
validated.  No MalformedHeader error exists in the code. -/
theorem C6_read_failure_cases :
    (∀ chunks : List (List Nat), (0 : Nat) ∉ chunks.flatten →
        parse_object chunks = .error .stopIteration)
    ∧ parse_object [bytes "blob x\x00hi"] = .error .valueError
    ∧ parse_object [bytes "blob\x00hi"] = .error .indexError
    ∧ parse_object [bytes "blob -3\x00hi"] = .ok ⟨blobKind, -3, [bytes "hi"]⟩
    ∧ parse_object [bytes "zork 3\x00hi"] = .ok ⟨bytes "zork", 3, [bytes "hi"]⟩ := by
  exact ⟨fun chunks h => parse_object_loop_no_nul chunks [] h, rfl, rfl, rfl, rfl⟩

/-- C6's amended behavior at a concrete NUL-free two-chunk stream. -/
theorem C6_read_failure_cases_witness :
    parse_object [bytes "ab", bytes "cd"] = .error .stopIteration :=
  C6_read_failure_cases.1 [bytes "ab", bytes "cd"] (by decide)

/-! ## C5 -/

/-- C5 (code bug), evaluated at the spec's example input
`write_snapshot(repo, '/a/b', ['/a/b/../c'])`: the call fails with NameError
— line 175 of cache.py references the undefined name `root` — not with a
PathEscapesRoot path-safety rejection; the filesystem and the byte counter are
left untouched.  (The intended containment check on line 183 is itself
malformed: `all(path.startswith(rootdir) in paths)` applies `all` to a single
membership test, and no normalization of `..` segments is ever performed.) -/
theorem C5_write_tree_crashes :
    write_tree (bytes "repo") (bytes "/a/b") [bytes "/a/b/../c"] [] 0
      = (.error .nameError, [], 0) := rfl

/-! ## C7 -/

/-- C7 is refuted as stated: invoking the top-level snapshot-write operation
with the byte counter at 7 leaves the counter at 7 — it is not reset at the
start of the operation.  (The invocation itself aborts with NameError before
writing anything, so no write contributes either.) -/
theorem C7_counterexample :
    write_tree (bytes "repo") (bytes "/a/b") [bytes "x.txt"] [] 7
      = (.error .nameError, [], 7)
    ∧ (7 : Nat) ≠ 0 := ⟨rfl, by decide⟩

/-- C7 amended: nothing in the code ever resets `total_write_length`.  A
snapshot-write invocation (`write_tree`) raises NameError before touching the
counter, returning it unchanged rather than zeroed; in `write_object` the
counter grows by exactly the payload length when the object is newly stored,
and is unchanged when the object is already present. -/
theorem C7_counter_never_reset (repo rootdir : List Nat) (paths : List (List Nat))
    (fs : FS) (counter : Nat) (K P : List Nat) (hK : K ∈ OBJECT_TYPES) :
    write_tree repo rootdir paths fs counter = (.error .nameError, fs, counter)
    ∧ (fs.lookup (objPath repo (sha1Hex (object_header K P.length ++ P))) = none →
        write_object repo fs counter K ⟨P, 0⟩
          = .ok ((objPath repo (sha1Hex (object_header K P.length ++ P)),
                  object_header K P.length ++ P) :: fs,
                 counter + P.length,
                 sha1Hex (object_header K P.length ++ P), P.length))
    ∧ (∀ v, fs.lookup (objPath repo (sha1Hex (object_header K P.length ++ P))) = some v →
        write_object repo fs counter K ⟨P, 0⟩
          = .ok (fs, counter, sha1Hex (object_header K P.length ++ P), P.length)) := by
  refine ⟨rfl, ?_, ?_⟩
  · intro h
    have := write_object_fresh repo fs counter K P 0 hK
      (by simpa using h)
    simpa using this
  · intro v h
    have := write_object_exists repo fs counter K P 0 v hK
      (by simpa using h)
    simpa using this

/-- C7's amended behavior at concrete inputs: the failed snapshot write leaves
the counter at 5, and a fresh object write adds exactly the payload length. -/
theorem C7_counter_never_reset_witness :
    write_tree (bytes "r") (bytes "/a") [] [] 5 = (.error .nameError, [], 5)
    ∧ write_object (bytes "r") [] 5 blobKind ⟨bytes "hi", 0⟩
        = .ok ((objPath (bytes "r")
                  (sha1Hex (object_header blobKind (bytes "hi").length ++ bytes "hi")),
                object_header blobKind (bytes "hi").length ++ bytes "hi") :: [],
               5 + (bytes "hi").length,
               sha1Hex (object_header blobKind (bytes "hi").length ++ bytes "hi"),
               (bytes "hi").length) :=
  ⟨(C7_counter_never_reset (bytes "r") (bytes "/a") [] [] 5 blobKind (bytes "hi")
      (by decide)).1,
   (C7_counter_never_reset (bytes "r") (bytes "/a") [] [] 5 blobKind (bytes "hi")
      (by decide)).2.1 rfl⟩

/-! ## C3 -/

/-- C3: writing the same kind and payload (a stream positioned at its start)
a second time after a first write returns the same hash and length, leaves the
filesystem — in particular the stored object file's contents — unchanged, and
does not increase the write-byte counter. -/
theorem C3_idempotent (repo : List Nat) (fs : FS) (counter : Nat)
    (K P : List Nat) (hK : K ∈ OBJECT_TYPES) :
    ∃ fs₁ c₁ sha len,
      write_object repo fs counter K ⟨P, 0⟩ = .ok (fs₁, c₁, sha, len)
      ∧ write_object repo fs₁ c₁ K ⟨P, 0⟩ = .ok (fs₁, c₁, sha, len) := by
  cases h : fs.lookup (objPath repo (sha1Hex (object_header K (P.length - 0) ++ P.drop 0))) with
  | some v =>
    refine ⟨fs, counter, _, _, write_object_exists repo fs counter K P 0 v hK h,
      write_object_exists repo fs counter K P 0 v hK h⟩
  | none =>
    refine ⟨_, _, _, _, write_object_fresh repo fs counter K P 0 hK h, ?_⟩
    exact write_object_exists repo _ _ K P 0 _ hK (lookup_cons_self _ _ fs)

/-- C3 at a concrete repository and payload. -/
theorem C3_idempotent_witness :
    blobKind ∈ OBJECT_TYPES
    ∧ ∃ fs₁ c₁ sha len,
        write_object (bytes "r") [] 0 blobKind ⟨bytes "hello", 0⟩ = .ok (fs₁, c₁, sha, len)
        ∧ write_object (bytes "r") fs₁ c₁ blobKind ⟨bytes "hello", 0⟩ = .ok (fs₁, c₁, sha, len) :=
  ⟨by decide, C3_idempotent (bytes "r") [] 0 blobKind (bytes "hello") (by decide)⟩

/-! ## C10 -/

/-- C10: `write_object` measures the length and hashes the bytes from the
stream's current position, but stores — after `stream.seek(0)` — the header
followed by the stream's *entire* contents.  For a stream whose position is
strictly positive, the stored decompressed file is
`header(K, len-pos) ++ P` whose payload part `P` disagrees with the declared
length `len-pos`, and the hashed byte sequence differs from the stored one:
the round-trip guarantee can only hold for streams positioned at 0. -/
theorem C10_rewind_mismatch (repo : List Nat) (fs : FS) (counter : Nat)
    (K P : List Nat) (pos : Nat) (hK : K ∈ OBJECT_TYPES)
    (hpos : 0 < pos) (hle : pos ≤ P.length)
    (hfresh : fs.lookup (objPath repo
        (sha1Hex (object_header K (P.length - pos) ++ P.drop pos))) = none) :
    write_object repo fs counter K ⟨P, pos⟩
      = .ok ((objPath repo (sha1Hex (object_header K (P.length - pos) ++ P.drop pos)),
              object_header K (P.length - pos) ++ P) :: fs,
             counter + (P.length - pos),
             sha1Hex (object_header K (P.length - pos) ++ P.drop pos),
             P.length - pos)
    ∧ P.length - pos ≠ P.length
    ∧ object_header K (P.length - pos) ++ P.drop pos
        ≠ object_header K (P.length - pos) ++ P := by
  refine ⟨write_object_fresh repo fs counter K P pos hK hfresh, by omega, ?_⟩
  intro h
  have := List.append_cancel_left h
  have hlen : (P.drop pos).length = P.length := by rw [this]
  rw [List.length_drop] at hlen
  omega

/-- C10 at a concrete stream positioned past its start. -/
theorem C10_rewind_mismatch_witness :
    blobKind ∈ OBJECT_TYPES ∧ 0 < 1 ∧ 1 ≤ (bytes "abc").length
    ∧ (write_object (bytes "r") [] 0 blobKind ⟨bytes "abc", 1⟩
        = .ok ((objPath (bytes "r")
                  (sha1Hex (object_header blobKind ((bytes "abc").length - 1)
                    ++ (bytes "abc").drop 1)),
                object_header blobKind ((bytes "abc").length - 1) ++ bytes "abc") :: [],
               0 + ((bytes "abc").length - 1),
               sha1Hex (object_header blobKind ((bytes "abc").length - 1)
                 ++ (bytes "abc").drop 1),
               (bytes "abc").length - 1)
       ∧ (bytes "abc").length - 1 ≠ (bytes "abc").length
       ∧ object_header blobKind ((bytes "abc").length - 1) ++ (bytes "abc").drop 1
           ≠ object_header blobKind ((bytes "abc").length - 1) ++ bytes "abc") :=
  ⟨by decide, by decide, by decide,
   C10_rewind_mismatch (bytes "r") [] 0 blobKind (bytes "abc") 1
     (by decide) (by decide) (by decide) rfl⟩

/-! ## C4 -/

/-- C4 is refuted as stated: writing the fresh blob `"A"` into an empty
repository, the trace state at index 1 — reached right after
`open(path, 'wb')` and before compressed bytes are written — already has a
file at the final sharded path whose contents (empty) are not the complete
stored object, which appears only in the final state at index 2.  There is no
temporary file or rename: a partially written file is exposed at the final
path. -/
theorem C4_counterexample :
    (write_object_trace (bytes "r") [] blobKind ⟨bytes "A", 0⟩)[1]?
        = some [(objPath (bytes "r") (sha1Hex (object_header blobKind 1 ++ bytes "A")), [])]
    ∧ List.lookup (objPath (bytes "r") (sha1Hex (object_header blobKind 1 ++ bytes "A")))
        [(objPath (bytes "r") (sha1Hex (object_header blobKind 1 ++ bytes "A")),
          ([] : List Nat))]
        = some ([] : List Nat)
    ∧ (write_object_trace (bytes "r") [] blobKind ⟨bytes "A", 0⟩)[2]?
        = some [(objPath (bytes "r") (sha1Hex (object_header blobKind 1 ++ bytes "A")),
                 object_header blobKind 1 ++ bytes "A")]
    ∧ ([] : List Nat) ≠ object_header blobKind 1 ++ bytes "A" := by
  refine ⟨rfl, lookup_cons_self _ _ [], rfl, by simp [object_header]⟩

/-- C4 amended: for every new-object write, `write_object` opens the final
sharded path directly and writes into it — the filesystem passes through an
intermediate state in which the final path holds an empty, incomplete file,
and only the last state holds the complete object; no temporary file or
atomic rename exists, so a concurrent reader of that hash can observe a
partially written file. -/
theorem C4_no_atomic_rename (repo : List Nat) (fs : FS) (K P : List Nat) (pos : Nat)
    (hK : K ∈ OBJECT_TYPES)
    (hfresh : fs.lookup (objPath repo
        (sha1Hex (object_header K (P.length - pos) ++ P.drop pos))) = none) :
    write_object_trace repo fs K ⟨P, pos⟩
      = [fs,
         (objPath repo (sha1Hex (object_header K (P.length - pos) ++ P.drop pos)), []) :: fs,
         (objPath repo (sha1Hex (object_header K (P.length - pos) ++ P.drop pos)),
          object_header K (P.length - pos) ++ P) :: fs]
    ∧ List.lookup (objPath repo (sha1Hex (object_header K (P.length - pos) ++ P.drop pos)))
        ((objPath repo (sha1Hex (object_header K (P.length - pos) ++ P.drop pos)), []) :: fs)
        = some []
    ∧ ([] : List Nat) ≠ object_header K (P.length - pos) ++ P := by
  refine ⟨?_, lookup_cons_self _ _ fs, by simp [object_header]⟩
  simp only [write_object_trace, if_pos hK, stream_length, ByteStream.tell,
    ByteStream.seekEnd, ByteStream.seekTo, hfresh, Option.isSome_none,
    Bool.false_eq_true, if_false]

/-- C4's amended behavior at a concrete fresh write. -/
theorem C4_no_atomic_rename_witness :
    blobKind ∈ OBJECT_TYPES
    ∧ (write_object_trace (bytes "q") [] blobKind ⟨bytes "xy", 0⟩
        = [[],
           [(objPath (bytes "q")
               (sha1Hex (object_header blobKind ((bytes "xy").length - 0)
                 ++ (bytes "xy").drop 0)), [])],
           [(objPath (bytes "q")
               (sha1Hex (object_header blobKind ((bytes "xy").length - 0)
                 ++ (bytes "xy").drop 0)),
             object_header blobKind ((bytes "xy").length - 0) ++ bytes "xy")]]
       ∧ List.lookup (objPath (bytes "q")
             (sha1Hex (object_header blobKind ((bytes "xy").length - 0)
               ++ (bytes "xy").drop 0)))
           [(objPath (bytes "q")
               (sha1Hex (object_header blobKind ((bytes "xy").length - 0)
                 ++ (bytes "xy").drop 0)), ([] : List Nat))]
           = some ([] : List Nat)
       ∧ ([] : List Nat) ≠ object_header blobKind ((bytes "xy").length - 0) ++ bytes "xy") :=
  ⟨by decide, C4_no_atomic_rename (bytes "q") [] blobKind (bytes "xy") 0 (by decide) rfl⟩

/-! ## C1 -/

/-- C1: store-level round-trip.  For every recognized kind `K` and payload
`P` supplied as a stream positioned at its start, `write_object` succeeds
returning the hash of `header ++ P`; the file stored under that hash is
exactly `header ++ P`; and reading that hash back — for every chunking the
decompressor may produce of those bytes — yields an object whose kind is `K`,
whose length is `P.length`, and whose payload chunks concatenate to exactly
`P`.  The disjunctive hypothesis is the no-collision assumption the code's
existence check relies on (spec §8: collisions assumed practically
impossible): the target path is either free or already holds this very
object. -/
theorem C1_roundtrip (repo : List Nat) (fs : FS) (counter : Nat) (K P : List Nat)
    (hK : K ∈ OBJECT_TYPES)
    (hcoll : fs.lookup (objPath repo (sha1Hex (object_header K P.length ++ P))) = none
      ∨ fs.lookup (objPath repo (sha1Hex (object_header K P.length ++ P)))
          = some (object_header K P.length ++ P)) :
    ∃ fs' counter',
      write_object repo fs counter K ⟨P, 0⟩
        = .ok (fs', counter', sha1Hex (object_header K P.length ++ P), P.length)
      ∧ fs'.lookup (objPath repo (sha1Hex (object_header K P.length ++ P)))
          = some (object_header K P.length ++ P)
      ∧ ∀ chunks : List (List Nat), chunks.flatten = object_header K P.length ++ P →
          ∃ dataChunks,
            read_object repo fs' (sha1Hex (object_header K P.length ++ P)) chunks
              = .ok ⟨K, (P.length : Int), dataChunks⟩
            ∧ dataChunks.flatten = P := by
  obtain ⟨hKnil, hKs, hKnul⟩ := kind_props hK
  have hread : ∀ fs' : FS,
      fs'.lookup (objPath repo (sha1Hex (object_header K P.length ++ P)))
        = some (object_header K P.length ++ P) →
      ∀ chunks : List (List Nat), chunks.flatten = object_header K P.length ++ P →
      ∃ dataChunks,
        read_object repo fs' (sha1Hex (object_header K P.length ++ P)) chunks
          = .ok ⟨K, (P.length : Int), dataChunks⟩
        ∧ dataChunks.flatten = P := by
    intro fs' hlook chunks hchunks
    obtain ⟨dataChunks, hparse, hflat⟩ :=
      parse_object_wf K P.length P hKnil hKs hKnul chunks hchunks
    refine ⟨dataChunks, ?_, hflat⟩
    rw [read_object, hlook]
    exact hparse
  rcases hcoll with h | h
  · have hw := write_object_fresh repo fs counter K P 0 hK (by simpa using h)
    refine ⟨_, _, by simpa using hw, lookup_cons_self _ _ fs, ?_⟩
    exact hread _ (lookup_cons_self _ _ fs)
  · have hw := write_object_exists repo fs counter K P 0 _ hK (by simpa using h)
    exact ⟨fs, counter, by simpa using hw, h, hread fs h⟩

/-- C1 at a concrete payload written into an empty repository, read back with
a two-chunk decompression. -/
theorem C1_roundtrip_witness :
    blobKind ∈ OBJECT_TYPES
    ∧ ∃ fs' counter',
        write_object (bytes "r") [] 0 blobKind ⟨bytes "hi", 0⟩
          = .ok (fs', counter',
                 sha1Hex (object_header blobKind (bytes "hi").length ++ bytes "hi"),
                 (bytes "hi").length)
        ∧ fs'.lookup (objPath (bytes "r")
              (sha1Hex (object_header blobKind (bytes "hi").length ++ bytes "hi")))
            = some (object_header blobKind (bytes "hi").length ++ bytes "hi")
        ∧ ∀ chunks : List (List Nat),
            chunks.flatten = object_header blobKind (bytes "hi").length ++ bytes "hi" →
            ∃ dataChunks,
              read_object (bytes "r") fs'
                  (sha1Hex (object_header blobKind (bytes "hi").length ++ bytes "hi")) chunks
                = .ok ⟨blobKind, ((bytes "hi").length : Int), dataChunks⟩
              ∧ dataChunks.flatten = bytes "hi" :=
  ⟨by decide, C1_roundtrip (bytes "r") [] 0 blobKind (bytes "hi") (by decide) (Or.inl rfl)⟩

/-! ## C2 -/

/-- Restoring a list of entries whose referenced blobs are all stored
well-formed (with contents given by `C` as a function of the entry's hash):
every entry's file is created at `destRoot/relPath` with its stored mode and
its blob's contents, the restored relative paths are returned in encoded
order, and paths outside the entry list are untouched. -/
theorem restoreEntries_spec (repo : List Nat) (fs : FS) (destRoot : List Nat)
    (C : List Nat → List Nat) :
    ∀ (es : List TreeEntry) (out : DestFS),
      (∀ e ∈ es, pathEscapes e.relPath = false) →
      (∀ e ∈ es, fs.lookup (objPath repo e.hash)
        = some (object_header blobKind (C e.hash).length ++ C e.hash)) →
      (es.map (fun e => destRoot ++ 47 :: e.relPath)).Nodup →
      ∃ out',
        restoreEntries repo fs destRoot es out = .ok (es.map TreeEntry.relPath, out')
        ∧ (∀ e ∈ es, out'.lookup (destRoot ++ 47 :: e.relPath) = some (e.mode, C e.hash))
        ∧ (∀ p, p ∉ es.map (fun e => destRoot ++ 47 :: e.relPath) →
            out'.lookup p = out.lookup p) := by
  intro es
  induction es with
  | nil =>
    intro out _ _ _
    exact ⟨out, rfl, by simp, fun p _ => rfl⟩
  | cons e es ih =>
    intro out hesc hblob hnodup
    have hesc_e := hesc e (List.mem_cons_self e es)
    have hblob_e := hblob e (List.mem_cons_self e es)
    simp only [List.map_cons, List.nodup_cons] at hnodup
    have hKprops := kind_props (show blobKind ∈ OBJECT_TYPES by decide)
    obtain ⟨dataChunks, hparse, hflat⟩ :=
      parse_object_wf blobKind (C e.hash).length (C e.hash)
        hKprops.1 hKprops.2.1 hKprops.2.2
        [object_header blobKind (C e.hash).length ++ C e.hash] (by simp)
    obtain ⟨out', hrun, hmem, hframe⟩ := ih
      ((destRoot ++ 47 :: e.relPath, e.mode, dataChunks.flatten) :: out)
      (fun x hx => hesc x (List.mem_cons_of_mem e hx))
      (fun x hx => hblob x (List.mem_cons_of_mem e hx))
      hnodup.2
    refine ⟨out', ?_, ?_, ?_⟩
    · simp only [restoreEntries, hesc_e, Bool.false_eq_true, if_false, hblob_e,
        hparse, hrun, List.map_cons]
    · intro x hx
      rcases List.mem_cons.mp hx with rfl | hx
      · rw [hframe _ hnodup.1, lookup_cons_self, hflat]
      · exact hmem x hx
    · intro p hp
      simp only [List.map_cons, List.mem_cons, not_or] at hp
      rw [hframe p hp.2, lookup_cons_ne _ _ hp.1]

/-- C2 (spec-modelled; `restore_tree` in the source is an empty stub): for
every repository filesystem in which `treeSha` names a well-formed stored tree
object whose payload decodes to entries `es`, whose entry paths are
non-escaping and distinct, and whose referenced blobs are all stored
well-formed with contents `C`, `restore_snapshot` returns the entries'
relative paths in encoded order and recreates each file at
`destination_root/relative_path` with the referenced blob's contents and the
stored mode. -/
theorem C2_restore_snapshot (repo : List Nat) (fs : FS) (treeSha destRoot : List Nat)
    (payload : List Nat) (es : List TreeEntry) (C : List Nat → List Nat)
    (htree : fs.lookup (objPath repo treeSha)
        = some (object_header treeKind payload.length ++ payload))
    (hdecode : decodeTree payload = some es)
    (hesc : ∀ e ∈ es, pathEscapes e.relPath = false)
    (hblobs : ∀ e ∈ es, fs.lookup (objPath repo e.hash)
        = some (object_header blobKind (C e.hash).length ++ C e.hash))
    (hnodup : (es.map (fun e => destRoot ++ 47 :: e.relPath)).Nodup) :
    ∃ out,
      restore_snapshot repo fs treeSha destRoot = .ok (es.map TreeEntry.relPath, out)
      ∧ ∀ e ∈ es, out.lookup (destRoot ++ 47 :: e.relPath) = some (e.mode, C e.hash) := by
  have hKprops := kind_props (show treeKind ∈ OBJECT_TYPES by decide)
  obtain ⟨dataChunks, hparse, hflat⟩ :=
    parse_object_wf treeKind payload.length payload
      hKprops.1 hKprops.2.1 hKprops.2.2
      [object_header treeKind payload.length ++ payload] (by simp)
  obtain ⟨out, hrun, hmem, _⟩ :=
    restoreEntries_spec repo fs destRoot C es [] hesc hblobs hnodup
  refine ⟨out, ?_, hmem⟩
  simp only [restore_snapshot, htree, hparse, if_pos rfl, hflat, hdecode, hrun]
  simp

/-- C2 at a concrete one-entry tree stored together with its blob. -/
theorem C2_restore_snapshot_witness :
    ([(objPath (bytes "r") (bytes "tab1"),
        object_header treeKind (bytes "'644' 'b1x' 'f'").length ++ bytes "'644' 'b1x' 'f'"),
      (objPath (bytes "r") (bytes "b1x"),
        object_header blobKind (bytes "hi").length ++ bytes "hi")] : FS).lookup
        (objPath (bytes "r") (bytes "tab1"))
      = some (object_header treeKind (bytes "'644' 'b1x' 'f'").length
          ++ bytes "'644' 'b1x' 'f'")
    ∧ decodeTree (bytes "'644' 'b1x' 'f'")
        = some [⟨bytes "644", bytes "b1x", bytes "f"⟩]
    ∧ ∃ out,
        restore_snapshot (bytes "r")
            [(objPath (bytes "r") (bytes "tab1"),
              object_header treeKind (bytes "'644' 'b1x' 'f'").length
                ++ bytes "'644' 'b1x' 'f'"),
             (objPath (bytes "r") (bytes "b1x"),
              object_header blobKind (bytes "hi").length ++ bytes "hi")]
            (bytes "tab1") (bytes "/d")
          = .ok (([⟨bytes "644", bytes "b1x", bytes "f"⟩] : List TreeEntry).map
              TreeEntry.relPath, out)
        ∧ ∀ e ∈ ([⟨bytes "644", bytes "b1x", bytes "f"⟩] : List TreeEntry),
            out.lookup (bytes "/d" ++ 47 :: e.relPath)
              = some (e.mode, (fun _ => bytes "hi") e.hash) :=
  ⟨by decide, by decide,
   C2_restore_snapshot (bytes "r")
     [(objPath (bytes "r") (bytes "tab1"),
       object_header treeKind (bytes "'644' 'b1x' 'f'").length ++ bytes "'644' 'b1x' 'f'"),
      (objPath (bytes "r") (bytes "b1x"),
       object_header blobKind (bytes "hi").length ++ bytes "hi")]
     (bytes "tab1") (bytes "/d") (bytes "'644' 'b1x' 'f'")
     [⟨bytes "644", bytes "b1x", bytes "f"⟩] (fun _ => bytes "hi")
     (by decide) (by decide) (by decide) (by decide) (by decide)⟩
